import Mathlib

/-!
Verification of the type-system bootstrap (`asyncua/common/structures104.py`)
and the bulk address-space loader
(`asyncua/server/standard_address_space/standard_address_space.py`)
of the opcua-asyncio repository, as a shallow embedding in Lean 4.

Conventions: each definition is translated directly from the Python source
(file and line numbers given in its doc comment).  Machine integers are
modelled as `Int`/`Nat` (no overflow is relevant to any claim).  Python
functions that can raise are modelled with `Option`/`Except`.
-/

namespace Structures104

/-- NodeId as used by the claims: a namespace index plus a numeric
identifier (`ua.NodeId`; string/guid identifiers play no role in the
verified claims, so the identifier is modelled as `Nat`). -/
structure NodeId where
  NamespaceIndex : Nat
  Identifier : Nat
  deriving DecidableEq, Repr

/-- Model of `ua.StructureField`: the attributes read by
`make_structure_code` and `DataTypeSorter` (`Name`, `DataType`,
`ValueRank`, `ArrayDimensions`, `IsOptional`).  `ValueRank` is an `Int`
because the OPC UA `ValueRank` enumeration has negative members
(Scalar = -1) and the source compares it with `>= 1`. -/
structure StructField where
  Name : String
  DataType : NodeId
  ValueRank : Int
  ArrayDimensions : List Nat
  IsOptional : Bool
  deriving DecidableEq, Repr

/-- Model of `ua.EnumField`: the attributes read by `make_enum_code`. -/
structure EnumField where
  Name : String
  Value : Int
  deriving DecidableEq, Repr

/-- Model of `ua.StructureType` (the three members of the OPC UA
enumeration). -/
inductive StructureType where
  | Structure
  | StructureWithOptionalFields
  | Union
  deriving DecidableEq, Repr

/-- Model of `ua.StructureDefinition`: the attributes read by
`make_structure_code`, `DataTypeSorter` and `_recursive_parse`. -/
structure SDef where
  StructureType : StructureType
  Fields : List StructField
  DefaultEncodingId : NodeId
  deriving DecidableEq, Repr

/-- Model of a reference description as returned by
`get_children_descriptions`: the attributes `_recursive_parse` reads are
`desc.NodeId` and `desc.BrowseName.Name`. -/
structure NodeDesc where
  nodeId : NodeId
  browseName : String
  deriving DecidableEq, Repr

/-- Word characters for the purposes of the regular expressions in
`clean_name` (structures104.py lines 87-88).  Python's `\w` is
Unicode-aware; this embedding models the ASCII fragment
`[A-Za-z0-9_]`, which is the class relevant to Python identifiers. -/
def isWordChar (c : Char) : Bool := c.isAlphanum || c = '_'

/-- Scanner for `re.sub(r'\W+', '_', name)`: the flag records whether the
previous character was part of a non-word run (so that a maximal run of
non-word characters yields a single underscore, as the `+` in the regex
demands). -/
def subNonWordAux (inRun : Bool) : List Char → List Char
  | [] => []
  | c :: cs =>
    if isWordChar c then c :: subNonWordAux false cs
    else if inRun then subNonWordAux true cs
    else '_' :: subNonWordAux true cs

/-- Model of `re.sub(r'\W+', '_', name)` (structures104.py line 87):
every maximal run of non-word characters is replaced by a single
underscore. -/
def subNonWord (l : List Char) : List Char := subNonWordAux false l

/-- Model of `re.sub(r'^[0-9]+', r'_\g<0>', newname)` (structures104.py
line 88): when the string starts with a digit the matched leading digit
run is replaced by itself preceded by an underscore, i.e. a single
underscore is prepended. -/
def prefixDigitFix (l : List Char) : List Char :=
  match l with
  | [] => []
  | c :: _ => if c.isDigit then '_' :: l else l

/-- Model of `clean_name` (structures104.py lines 82-92): the two regex
substitutions in order.  The `logger.warning` on rename is
observational only and is not modelled. -/
def clean_name (name : String) : String :=
  String.mk (prefixDigitFix (subNonWord name.data))

/-- Python expressions that `get_default_value` / `make_structure_code`
can emit as a field initializer.  The first block of constructors are
the values actually produced by the source; the last four
(`pyFalse`, `emptyString`, `zeroGuid`, `zeroDateTime`) are the
zero values the specification describes, included so that spec and code
behaviour can be compared.  `emptyBytes` renders as the bytes literal
the source returns directly. -/
inductive DefaultExpr where
  | pyNone
  | uuid4
  | emptyBytes
  | pyTrue
  | utcnow
  | zero
  | enumCall (typeName : String) (value : Int)
  | enumFirstMember (typeName member : String)
  | defaultCtor (typeName : String)
  | emptyList
  | pyFalse
  | emptyString
  | zeroGuid
  | zeroDateTime
  deriving DecidableEq, Repr

/-- Numeric wire type names handled by the integer branch of
`get_default_value` (structures104.py line 108). -/
def numericTypes : List String :=
  ["Int16", "Int32", "Int64", "UInt16", "UInt32", "UInt64",
   "Double", "Float", "Byte", "SByte"]

/-- Model of `get_default_value(uatype, enums)` (structures104.py lines
95-117).  `uaEnumFirst` models the environment probe
`hasattr(ua, uatype) and issubclass(getattr(ua, uatype), Enum)`
followed by taking the first member name: it returns `some member` when
`ua` has an enum class of that name and `none` otherwise.  `enums` is
the optional name-to-value table parameter (default `{}`). -/
def get_default_value (uaEnumFirst : String → Option String)
    (uatype : String) (enums : List (String × Int)) : DefaultExpr :=
  if uatype = "String" then .pyNone
  else if uatype = "Guid" then .uuid4
  else if uatype = "ByteString" ∨ uatype = "CharArray" ∨ uatype = "Char" then .emptyBytes
  else if uatype = "Boolean" then .pyTrue
  else if uatype = "DateTime" then .utcnow
  else if uatype ∈ numericTypes then .zero
  else
    match enums.lookup uatype with
    | some v => .enumCall uatype v
    | none =>
      match uaEnumFirst uatype with
      | some m => .enumFirstMember uatype m
      | none => .defaultCtor uatype

/-- Default initializer chosen for one field by `make_structure_code`
(structures104.py lines 189-195): the empty list exactly when
`field.ValueRank >= 1`, otherwise `get_default_value(uatype)` (called
with the default empty `enums` table). -/
def struct_field_default (uaEnumFirst : String → Option String)
    (valueRank : Int) (uatype : String) : DefaultExpr :=
  if valueRank ≥ 1 then .emptyList
  else get_default_value uaEnumFirst uatype []

/-- Model of the loop of `new_enum` (structures104.py lines 68-75): a
counter starting at 0 is assigned as the `Value` of each created
`EnumField` in order. -/
def new_enum_fields_from (counter : Int) : List String → List EnumField
  | [] => []
  | v :: vs => { Name := v, Value := counter } :: new_enum_fields_from (counter + 1) vs

/-- Fields of the `EnumDefinition` built by `new_enum` for a given list
of member names. -/
def new_enum_fields (values : List String) : List EnumField :=
  new_enum_fields_from 0 values

/-- Semantic content of `make_enum_code` (structures104.py lines
295-314): the generated class body is one `name = value` line per field,
with the name cleaned by `clean_name` and the value taken from the
field's `Value` attribute. -/
def make_enum_entries (edef : List EnumField) : List (String × Int) :=
  edef.map fun f => (clean_name f.Name, f.Value)

/-- Modelled from the spec: the lookup environment that
`make_structure_code` consults to resolve a field's wire type name.
The three tables (`ua.ObjectIdNames`, `ua.extension_objects_by_datatype`,
`ua.enums_by_datatype`) live in the `ua` module, outside the provided
sources; the spec describes them as the built-in primitive catalog and
the registry of already-registered structures and enums. -/
structure UaEnv where
  objectIdNames : Nat → Option String
  extensionObjectName : NodeId → Option String
  enumName : NodeId → Option String

/-- Modelled from the spec: a fragment of the built-in primitive catalog
`ua.ObjectIdNames` restricted to namespace-0 numeric identifiers of the
base data types (the standard OPC UA numeric ids). -/
def objectIdNamesTable : List (Nat × String) :=
  [(1, "Boolean"), (2, "SByte"), (3, "Byte"), (4, "Int16"), (5, "UInt16"),
   (6, "Int32"), (7, "UInt32"), (8, "Int64"), (9, "UInt64"), (10, "Float"),
   (11, "Double"), (12, "String"), (13, "DateTime"), (14, "Guid"),
   (15, "ByteString")]

/-- A NodeId denotes a built-in type when it lies in namespace 0 and its
numeric identifier is listed in the built-in catalog. -/
def isBuiltinNodeId (n : NodeId) : Bool :=
  n.NamespaceIndex = 0 && (objectIdNamesTable.any fun p => p.1 = n.Identifier)

/-- Concrete environment used for evaluation: the built-in catalog
fragment and empty structure/enum registries. -/
def uaEnvBase : UaEnv where
  objectIdNames := fun i => (objectIdNamesTable.find? fun p => p.1 = i).map Prod.snd
  extensionObjectName := fun _ => none
  enumName := fun _ => none

/-- Wire type name resolution for one field (structures104.py lines
161-170): (1) namespace-0 identifier present in `ua.ObjectIdNames`,
(2) datatype of an already-registered extension object, (3) datatype of
an already-registered enum; otherwise `RuntimeError`, modelled as
`none`. -/
def resolve_field_uatype (env : UaEnv) (f : StructField) : Option String :=
  if f.DataType.NamespaceIndex = 0 ∧ (env.objectIdNames f.DataType.Identifier).isSome then
    env.objectIdNames f.DataType.Identifier
  else if (env.extensionObjectName f.DataType).isSome then
    env.extensionObjectName f.DataType
  else if (env.enumName f.DataType).isSome then
    env.enumName f.DataType
  else none

/-- One `ua_types` entry for one field (structures104.py lines 156-174):
the cleaned field name paired with the resolved wire type name, with the
`Char`-to-`String` rewrite for arrays of `Char` and a `ListOf` marker
prepended when `field.ValueRank >= 1 or field.ArrayDimensions`. -/
def field_layout_entry (env : UaEnv) (f : StructField) : Option (String × String) :=
  match resolve_field_uatype env f with
  | none => none
  | some uatype0 =>
    let uatype := if f.ValueRank ≥ 1 ∧ uatype0 = "Char" then "String" else uatype0
    let pfx := if f.ValueRank ≥ 1 ∨ f.ArrayDimensions ≠ [] then "ListOf" else ""
    some (clean_name f.Name, pfx ++ uatype)

/-- The declared-field part of the `ua_types` list: one entry per field
in order, failing (like the `RuntimeError` at structures104.py line 170)
as soon as one field's datatype does not resolve. -/
def field_entries (env : UaEnv) : List StructField → Option (List (String × String))
  | [] => some []
  | f :: fs =>
    match field_layout_entry env f with
    | none => none
    | some e => (field_entries env fs).map fun rest => e :: rest

/-- Loop of structures104.py lines 143-150 building `ua_switches`: the
counter starts at 0 and is incremented once per optional field, so the
i-th optional field (in declaration order, counting only optional
fields) is mapped to bit i of the `Encoding` byte. -/
def switchesFrom (counter : Nat) : List StructField → List (String × Nat)
  | [] => []
  | f :: fs =>
    if f.IsOptional then (clean_name f.Name, counter) :: switchesFrom (counter + 1) fs
    else switchesFrom counter fs

/-- Errors `make_structure_code` can raise: `NotImplementedError` for a
structure type other than `Structure`/`StructureWithOptionalFields`
(line 126) and `RuntimeError` for an unresolvable field datatype
(line 170). -/
inductive MakeStructError where
  | notImplemented
  | unknownFieldDatatype
  deriving DecidableEq, Repr

/-- Semantic content of `make_structure_code` (structures104.py lines
120-196) relevant to the layout claims: the `ua_switches` table and the
`ua_types` list of the generated class.  When the structure type is
`StructureWithOptionalFields` the switches table is built and the entry
`('Encoding', 'Byte')` is the first element of `ua_types`
(lines 142-154); otherwise the switches table is absent (modelled as
`[]`) and `ua_types` holds exactly the per-field entries. -/
def make_structure_layout (env : UaEnv) (sdef : SDef) :
    Except MakeStructError (List (String × Nat) × List (String × String)) :=
  if sdef.StructureType = .Structure ∨ sdef.StructureType = .StructureWithOptionalFields then
    match field_entries env sdef.Fields with
    | none => .error .unknownFieldDatatype
    | some entries =>
      if sdef.StructureType = .StructureWithOptionalFields then
        .ok (switchesFrom 0 sdef.Fields, ("Encoding", "Byte") :: entries)
      else
        .ok ([], entries)
  else .error .notImplemented

/-- Classification performed by `new_struct` (structures104.py lines
52-57), matching the spec's rule: `StructureWithOptionalFields` exactly
when at least one field is optional, else `Structure`. -/
def structure_type_of (fields : List StructField) : StructureType :=
  if fields.any fun f => f.IsOptional then .StructureWithOptionalFields
  else .Structure

/-- Model of class `DataTypeSorter` (structures104.py lines 227-244):
the constructor stores the arguments and computes `encoding_id` from the
definition's `DefaultEncodingId` and `deps` as the list of every field's
`DataType` (line 234). -/
structure DataTypeSorter where
  data_type : NodeId
  name : String
  desc : NodeDesc
  sdef : SDef
  encoding_id : NodeId
  deps : List NodeId
  deriving DecidableEq, Repr

/-- Model of `DataTypeSorter.__init__` (structures104.py lines
228-234). -/
def DataTypeSorter.make (data_type : NodeId) (name : String) (desc : NodeDesc)
    (sdef : SDef) : DataTypeSorter :=
  { data_type := data_type
    name := name
    desc := desc
    sdef := sdef
    encoding_id := sdef.DefaultEncodingId
    deps := sdef.Fields.map fun f => f.DataType }

/-- Model of `DataTypeSorter.__lt__` (structures104.py lines 236-239):
`self < other` exactly when `self.desc.NodeId in other.deps`. -/
def dts_lt (a b : DataTypeSorter) : Bool :=
  decide (a.desc.nodeId ∈ b.deps)

/-- Insertion of an element at a given position of a list, as
`list.insert` does inside CPython's binary insertion sort (the position
computed by the binary search is always at most the list length). -/
def insertAt : Nat → α → List α → List α
  | 0, a, l => a :: l
  | _ + 1, a, [] => [a]
  | n + 1, a, x :: xs => x :: insertAt n a xs

/-- Binary search of CPython's `binarysort` (Objects/listobject.c):
finds the insertion point for `pivot` inside the sorted prefix `xs`
between indices `l` and `r`, moving left exactly when
`pivot < xs[m]`. -/
def bsearch (lt : α → α → Bool) (pivot : α) (xs : List α) (l r : Nat) : Nat :=
  if h : l < r then
    let m := (l + r) / 2
    if lt pivot (xs.getD m pivot) then bsearch lt pivot xs l m
    else bsearch lt pivot xs (m + 1) r
  else l
termination_by r - l
decreasing_by
  · have : (l + r) / 2 < r := by omega
    omega
  · omega

/-- Binary insertion sort pass of CPython's `binarysort`: each remaining
element is inserted into the already-sorted accumulator at the position
returned by the binary search. -/
def binsort (lt : α → α → Bool) : List α → List α → List α
  | acc, [] => acc
  | acc, x :: rest => binsort lt (insertAt (bsearch lt x acc 0 acc.length) x acc) rest

/-- Length of the maximal ascending initial run continuing after `prev`
(CPython `count_run`, ascending case: extend while not
`a[i] < a[i-1]`). -/
def runAsc (lt : α → α → Bool) (prev : α) : List α → Nat
  | [] => 0
  | x :: xs => if lt x prev then 0 else 1 + runAsc lt x xs

/-- Length of the maximal strictly descending initial run continuing
after `prev` (CPython `count_run`, descending case: extend while
`a[i] < a[i-1]`). -/
def runDesc (lt : α → α → Bool) (prev : α) : List α → Nat
  | [] => 0
  | x :: xs => if lt x prev then 1 + runDesc lt x xs else 0

/-- Model of CPython `list.sort()` for lists of fewer than 64 elements
(the regime of every concrete statement below): for such lists Timsort
computes `minrun = n`, detects the initial run with `count_run`
(reversing it when strictly descending), and extends it over the whole
list with `binarysort`; no merge pass runs.  `dtypes.sort()` at
structures104.py line 266 invokes this with `DataTypeSorter.__lt__` as
the comparison. -/
def pySort (lt : α → α → Bool) : List α → List α
  | [] => []
  | [a] => [a]
  | a :: b :: rest =>
    let xs := a :: b :: rest
    if lt b a then
      let d := 2 + runDesc lt b rest
      binsort lt (xs.take d).reverse (xs.drop d)
    else
      let d := 2 + runAsc lt b rest
      binsort lt (xs.take d) (xs.drop d)

/-- Decidable check that a list of descriptors is in topological order:
whenever the descriptor at position j lists among its `deps` the NodeId
of the descriptor at position i, then i < j (every type appears strictly
after each of its dependencies present in the list). -/
def topoOkB (l : List DataTypeSorter) : Bool :=
  l.enum.all fun pj =>
    l.enum.all fun pi =>
      !(decide (pi.2.desc.nodeId ∈ pj.2.deps)) || decide (pi.1 < pj.1)

/-- NodeIds of the descriptors of a list. -/
def descNodeIds (l : List DataTypeSorter) : List NodeId :=
  l.map fun d => d.desc.nodeId

/-- Acyclicity of the dependency graph of a set of descriptors,
expressed by a ranking function: some rank assignment strictly decreases
along every dependency edge that stays inside the set.  For a finite
graph this is equivalent to the absence of a (direct or transitive)
dependency cycle. -/
def AcyclicT (l : List DataTypeSorter) : Prop :=
  ∃ rank : NodeId → Nat,
    ∀ x ∈ l, ∀ d ∈ x.deps, d ∈ descNodeIds l → rank d < rank x.desc.nodeId

/-- Outcome of `node.read_data_type_definition()` as observed by
`_read_data_type_definition` (structures104.py lines 284-291): success,
`ua.uaerrors.BadAttributeIdInvalid`, or any other exception. -/
inductive ReadOutcome where
  | ok (sdef : SDef)
  | badAttributeId
  | otherError
  deriving DecidableEq, Repr

/-- The server as seen by the discovery walk: the environment probe
`hasattr(ua, name)` on browse names and the remote read of the
type-definition attribute for a NodeId. -/
structure Srv where
  uaHasAttr : String → Bool
  read : NodeId → ReadOutcome

/-- Model of `_read_data_type_definition` (structures104.py lines
275-292): returns `none` (Python `None`) when the browse name is the
excluded legacy name `FilterOperand`, when the browse name already
exists as an attribute of the `ua` module, when the node lacks the
attribute (`BadAttributeIdInvalid`), or when any other read error
occurs; otherwise the definition that was read. -/
def read_data_type_definition (srv : Srv) (desc : NodeDesc) : Option SDef :=
  if desc.browseName = "FilterOperand" then none
  else if srv.uaHasAttr desc.browseName then none
  else
    match srv.read desc.nodeId with
    | .ok sdef => some sdef
    | .badAttributeId => none
    | .otherError => none

/-- Model of the loop `for field in reversed(parent_sdef.Fields):
sdef.Fields.insert(0, field)` (structures104.py lines 254-255): each
parent field, taken in reverse declaration order, is prepended to the
subtype's field list. -/
def prepend_parent_fields (parentFields : List StructField) (sdef : SDef) : SDef :=
  { sdef with Fields := parentFields.reverse.foldl (fun acc f => f :: acc) sdef.Fields }

/-- The subtype hierarchy below the base node, as enumerated by repeated
`get_children_descriptions(refs=HasSubtype)` calls: a finite forest
(HasSubtype references form a tree). -/
inductive NodeTree where
  | node (desc : NodeDesc) (children : List NodeTree)
  deriving Repr

/-- Model of `_recursive_parse` (structures104.py lines 247-257) over a
forest of subtype trees: for each child description, read its
definition; on `None` skip the node entirely (the `continue` at line
251, which also skips the recursive descent); otherwise prepend the
parent's flattened fields when a parent definition exists, append the
`DataTypeSorter`, and recurse into the node's own subtypes with the
flattened definition as the new parent. -/
def recursive_parse (srv : Srv) : List NodeTree → Option SDef → List DataTypeSorter
  | [], _ => []
  | NodeTree.node d cs :: rest, parent =>
    match read_data_type_definition srv d with
    | none => recursive_parse srv rest parent
    | some sdef =>
      let sdef2 :=
        match parent with
        | none => sdef
        | some ps => prepend_parent_fields ps.Fields sdef
      DataTypeSorter.make d.nodeId (clean_name d.browseName) d sdef2
        :: (recursive_parse srv cs (some sdef2) ++ recursive_parse srv rest parent)

end Structures104

namespace StandardAddressSpace

/-- Failure raised by `PostponeReferences.__aexit__`
(standard_address_space.py lines 46 and 51): a `RuntimeError` whose
message lists either the remaining nodes or the remaining references.
Nodes and references are identified by natural numbers; the payload
lists every identifier the message reports. -/
inductive LoadFailure where
  | remainingNodes (ns : List Nat)
  | remainingRefs (rs : List Nat)
  deriving DecidableEq, Repr

/-- Identifiers named by a failure report. -/
def LoadFailure.reportedIds : LoadFailure → List Nat
  | .remainingNodes ns => ns
  | .remainingRefs rs => rs

/-- Model of `PostponeReferences.__aexit__` on the no-exception path
(standard_address_space.py lines 38-51).  `tryAddNodes` and `tryAddRefs`
model `server.try_add_nodes` / `server.try_add_references`: applied to a
batch they yield the entries that still fail to insert.  The retry pass
first re-attempts the postponed nodes and raises at once when any
remain — in that case the postponed references are never re-attempted
nor reported; only otherwise are the references retried, and any
remainder raises naming the references. -/
def aexit_retry (tryAddNodes : List Nat → List Nat) (tryAddRefs : List Nat → List Nat)
    (postponedNodes postponedRefs : List Nat) : Except LoadFailure Unit :=
  let remaining_nodes := tryAddNodes postponedNodes
  if remaining_nodes.length ≠ 0 then
    Except.error (LoadFailure.remainingNodes remaining_nodes)
  else
    let remaining_refs := tryAddRefs postponedRefs
    if remaining_refs.length ≠ 0 then
      Except.error (LoadFailure.remainingRefs remaining_refs)
    else Except.ok ()

end StandardAddressSpace

namespace Structures104

/-- Custom-namespace NodeId used by concrete examples. -/
def nid (i : Nat) : NodeId := ⟨2, i⟩

/-- A scalar required field of the given datatype, used by concrete
examples. -/
def depField (d : NodeId) : StructField :=
  { Name := "f", DataType := d, ValueRank := -1, ArrayDimensions := [], IsOptional := false }

/-- A structure definition whose fields have exactly the given
datatypes, used by concrete examples. -/
def sdefWithDeps (enc : NodeId) (ds : List NodeId) : SDef :=
  { StructureType := .Structure, Fields := ds.map depField, DefaultEncodingId := enc }

/-- A discovered descriptor for examples: custom type `i` whose fields
reference the custom types `ds`. -/
def sorterWithDeps (i : Nat) (ds : List Nat) : DataTypeSorter :=
  DataTypeSorter.make (nid i) "T" ⟨nid i, "T"⟩ (sdefWithDeps (nid (100 + i)) (ds.map nid))

/-- Example descriptor with no custom dependency. -/
def dtsA : DataTypeSorter := sorterWithDeps 1 []

/-- Example descriptor depending on `dtsA`. -/
def dtsB : DataTypeSorter := sorterWithDeps 2 [1]

/-- Example descriptor depending on `dtsB` (but not on `dtsA`). -/
def dtsC : DataTypeSorter := sorterWithDeps 3 [2]

/-- Example descriptor mutually dependent with `dtsQ`. -/
def dtsP : DataTypeSorter := sorterWithDeps 11 [12]

/-- Example descriptor mutually dependent with `dtsP`. -/
def dtsQ : DataTypeSorter := sorterWithDeps 12 [11]

/-- Example descriptor with no dependency, used by witnesses. -/
def dtsW1 : DataTypeSorter := sorterWithDeps 21 []

/-- Example descriptor depending on `dtsW1`, used by witnesses. -/
def dtsW2 : DataTypeSorter := sorterWithDeps 22 [21]

/-- Example parent field `X` of built-in type Int32. -/
def fieldXW : StructField :=
  { Name := "X", DataType := ⟨0, 6⟩, ValueRank := -1, ArrayDimensions := [], IsOptional := false }

/-- Example own field `Y` of built-in type String. -/
def fieldYW : StructField :=
  { Name := "Y", DataType := ⟨0, 12⟩, ValueRank := -1, ArrayDimensions := [], IsOptional := false }

/-- Example required field `Speed` of built-in type Double. -/
def fieldReqW : StructField :=
  { Name := "Speed", DataType := ⟨0, 11⟩, ValueRank := -1, ArrayDimensions := [], IsOptional := false }

/-- Example optional field `Label` of built-in type String. -/
def fieldOptW : StructField :=
  { Name := "Label", DataType := ⟨0, 12⟩, ValueRank := -1, ArrayDimensions := [], IsOptional := true }

/-- Example parent definition with the single field `X`. -/
def sdefParentW : SDef :=
  { StructureType := .Structure, Fields := [fieldXW], DefaultEncodingId := nid 201 }

/-- Example subtype definition with the single own field `Y`. -/
def sdefOwnW : SDef :=
  { StructureType := .Structure, Fields := [fieldYW], DefaultEncodingId := nid 202 }

/-- Example definition with one required and one optional field,
classified (as `new_struct` does) as `StructureWithOptionalFields`. -/
def sdefOptW : SDef :=
  { StructureType := .StructureWithOptionalFields, Fields := [fieldReqW, fieldOptW],
    DefaultEncodingId := nid 210 }

/-- Example server whose every read succeeds with `sdefOwnW`. -/
def srvW : Srv :=
  { uaHasAttr := fun _ => false, read := fun _ => ReadOutcome.ok sdefOwnW }

/-- Example description of a readable custom type node. -/
def descW : NodeDesc := ⟨nid 203, "MyType"⟩

/-- Example description carrying the excluded legacy browse name. -/
def descF : NodeDesc := ⟨nid 204, "FilterOperand"⟩

end Structures104

namespace Structures104

/-- Every character emitted by the non-word substitution is a word
character: kept characters satisfied the test and replacements are
underscores. -/
theorem subNonWordAux_word (b : Bool) (l : List Char) :
    ∀ c ∈ subNonWordAux b l, isWordChar c = true := by
  induction l generalizing b with
  | nil => simp [subNonWordAux]
  | cons x xs ih =>
    intro c hc
    simp only [subNonWordAux] at hc
    by_cases hx : isWordChar x
    · rw [if_pos hx] at hc
      rcases List.mem_cons.mp hc with h | h
      · exact h ▸ hx
      · exact ih false c h
    · rw [if_neg hx] at hc
      cases b with
      | true => exact ih true c (by simpa using hc)
      | false =>
        rcases List.mem_cons.mp (by simpa using hc) with h | h
        · subst h; decide
        · exact ih true c h
  
/-- On a list of word characters the non-word substitution is the
identity. -/
theorem subNonWordAux_id (b : Bool) (l : List Char)
    (h : ∀ c ∈ l, isWordChar c = true) : subNonWordAux b l = l := by
  induction l generalizing b with
  | nil => rfl
  | cons x xs ih =>
    have hx : isWordChar x = true := h x (List.mem_cons_self x xs)
    simp only [subNonWordAux, if_pos hx]
    exact congrArg (x :: ·) (ih false fun c hc => h c (List.mem_cons_of_mem x hc))

/-- The digit-prefix fix never returns a string starting with a
digit. -/
theorem prefixDigitFix_head (l : List Char) :
    ∀ c, (prefixDigitFix l).head? = some c → c.isDigit = false := by
  intro c hc
  cases l with
  | nil => simp [prefixDigitFix] at hc
  | cons x xs =>
    by_cases hx : x.isDigit
    · simp only [prefixDigitFix, if_pos hx, List.head?] at hc
      cases hc; decide
    · simp only [prefixDigitFix, if_neg hx, List.head?] at hc
      cases hc
      simpa using hx

/-- Characters of the digit-prefix fix: either from the input or an
underscore. -/
theorem prefixDigitFix_mem (l : List Char) :
    ∀ c ∈ prefixDigitFix l, c ∈ l ∨ c = '_' := by
  intro c hc
  cases l with
  | nil => simp [prefixDigitFix] at hc
  | cons x xs =>
    by_cases hx : x.isDigit
    · simp only [prefixDigitFix, if_pos hx] at hc
      rcases List.mem_cons.mp hc with h | h
      · exact Or.inr h
      · exact Or.inl h
    · simp only [prefixDigitFix, if_neg hx] at hc
      exact Or.inl hc

/-- When the first character is not a digit the digit-prefix fix is the
identity. -/
theorem prefixDigitFix_id (l : List Char)
    (h : ∀ c, l.head? = some c → c.isDigit = false) : prefixDigitFix l = l := by
  cases l with
  | nil => rfl
  | cons x xs =>
    have hx := h x rfl
    simp [prefixDigitFix, hx]

/-- Every character of a cleaned name is a word character. -/
theorem clean_name_word (n : String) :
    ∀ c ∈ (clean_name n).data, isWordChar c = true := by
  intro c hc
  have hc' : c ∈ prefixDigitFix (subNonWord n.data) := hc
  rcases prefixDigitFix_mem _ c hc' with h | h
  · exact subNonWordAux_word false n.data c h
  · subst h; decide

/-- A cleaned name never starts with a digit. -/
theorem clean_name_head (n : String) :
    ∀ c, (clean_name n).data.head? = some c → c.isDigit = false := by
  intro c hc
  exact prefixDigitFix_head _ c hc

end Structures104

namespace Structures104

/-- C9: for every input name n, `clean_name` (the field-name
sanitization of structures104.py lines 82-92) satisfies
`clean_name (clean_name n) = clean_name n`; its result never starts
with a digit and contains only word characters (letters, digits,
underscore). -/
theorem c9_sanitize_idempotent_wordlike (n : String) :
    clean_name (clean_name n) = clean_name n ∧
    (∀ c, (clean_name n).data.head? = some c → c.isDigit = false) ∧
    (∀ c ∈ (clean_name n).data, isWordChar c = true) := by
  refine ⟨?_, clean_name_head n, clean_name_word n⟩
  have hword : ∀ c ∈ (clean_name n).data, isWordChar c = true := clean_name_word n
  have h1 : subNonWord (clean_name n).data = (clean_name n).data :=
    subNonWordAux_id false _ hword
  have h2 : prefixDigitFix (clean_name n).data = (clean_name n).data :=
    prefixDigitFix_id _ (clean_name_head n)
  show String.mk (prefixDigitFix (subNonWord (clean_name n).data)) = clean_name n
  rw [h1, h2]

/-- Witness for C9 at the concrete name `"3 of:kind"`: cleaning yields
`"_3_of_kind"` and a second cleaning is a no-op. -/
theorem c9_witness :
    clean_name "3 of:kind" = "_3_of_kind" ∧
    clean_name (clean_name "3 of:kind") = clean_name "3 of:kind" :=
  ⟨by decide, (c9_sanitize_idempotent_wordlike "3 of:kind").1⟩

end Structures104

namespace Structures104

/-- Inserting at any position is a permutation of consing. -/
theorem insertAt_perm (a : α) : (n : Nat) → (l : List α) →
    List.Perm (insertAt n a l) (a :: l)
  | 0, _ => List.Perm.refl _
  | _ + 1, [] => List.Perm.refl _
  | n + 1, x :: xs =>
    ((insertAt_perm a n xs).cons x).trans (List.Perm.swap a x xs)

/-- The binary insertion pass returns a permutation of the accumulator
followed by the remaining elements. -/
theorem binsort_perm (lt : α → α → Bool) :
    (xs acc : List α) → List.Perm (binsort lt acc xs) (acc ++ xs)
  | [], acc => by simp [binsort]
  | x :: rest, acc => by
    have ih := binsort_perm lt rest (insertAt (bsearch lt x acc 0 acc.length) x acc)
    have hins : List.Perm (insertAt (bsearch lt x acc 0 acc.length) x acc ++ rest)
        ((x :: acc) ++ rest) :=
      (insertAt_perm x _ acc).append_right rest
    have hmid : List.Perm ((x :: acc) ++ rest) (acc ++ x :: rest) :=
      List.perm_middle.symm
    exact (ih.trans hins).trans hmid

/-- The modelled `list.sort` always returns a permutation of its
input, whatever the comparison does. -/
theorem pySort_perm (lt : α → α → Bool) : (xs : List α) →
    List.Perm (pySort lt xs) xs
  | [] => List.Perm.refl _
  | [a] => List.Perm.refl _
  | a :: b :: rest => by
    simp only [pySort]
    by_cases h : lt b a
    · rw [if_pos h]
      refine (binsort_perm lt _ _).trans ?_
      refine (((a :: b :: rest).take _).reverse_perm.append_right _).trans ?_
      rw [List.take_append_drop]
    · rw [if_neg h]
      refine (binsort_perm lt _ _).trans ?_
      rw [List.take_append_drop]

end Structures104

namespace Structures104

/-- C1 (amended): the dependency ordering step (`dtypes.sort()` with
`DataTypeSorter.__lt__`, structures104.py lines 236-239 and 266) always
returns a permutation of the discovered descriptors, and for inputs of
at most two descriptors the result of sorting an acyclic set is a valid
topological order; the claimed property fails for three or more
descriptors (see the counterexample). -/
theorem c1_pairwise_sort_order :
    (∀ xs : List DataTypeSorter, List.Perm (pySort dts_lt xs) xs) ∧
    (∀ x y : DataTypeSorter, AcyclicT [x, y] →
      topoOkB (pySort dts_lt [x, y]) = true) := by
  constructor
  · exact fun xs => pySort_perm dts_lt xs
  · rintro x y ⟨rank, hr⟩
    have hxmem : x ∈ [x, y] := by simp
    have hymem : y ∈ [x, y] := by simp
    have hxid : x.desc.nodeId ∈ descNodeIds [x, y] := by simp [descNodeIds]
    have hyid : y.desc.nodeId ∈ descNodeIds [x, y] := by simp [descNodeIds]
    have hxx : x.desc.nodeId ∉ x.deps := by
      intro hmem
      have := hr x hxmem x.desc.nodeId hmem hxid
      omega
    have hyy : y.desc.nodeId ∉ y.deps := by
      intro hmem
      have := hr y hymem y.desc.nodeId hmem hyid
      omega
    by_cases h : dts_lt y x = true
    · have h' : y.desc.nodeId ∈ x.deps := by simpa [dts_lt] using h
      have hxy : x.desc.nodeId ∉ y.deps := by
        intro hc
        have ha := hr y hymem x.desc.nodeId hc hxid
        have hb := hr x hxmem y.desc.nodeId h' hyid
        omega
      have hout : pySort dts_lt [x, y] = [y, x] := by
        simp [pySort, h, runDesc, binsort]
      rw [hout]
      simp [topoOkB, List.enum, List.enumFrom, hxx, hyy, hxy]
    · have h' : y.desc.nodeId ∉ x.deps := by simpa [dts_lt] using h
      have hout : pySort dts_lt [x, y] = [x, y] := by
        simp [pySort, h, runAsc, binsort]
      rw [hout]
      simp [topoOkB, List.enum, List.enumFrom, hxx, hyy, h']

/-- Witness for C1 at the acyclic pair `dtsW1`, `dtsW2` (`dtsW2` depends
on `dtsW1`): the sorted pair is in topological order. -/
theorem c1_witness :
    AcyclicT [dtsW1, dtsW2] ∧ topoOkB (pySort dts_lt [dtsW1, dtsW2]) = true := by
  have ha : AcyclicT [dtsW1, dtsW2] := ⟨fun n => n.Identifier, by decide⟩
  exact ⟨ha, c1_pairwise_sort_order.2 dtsW1 dtsW2 ha⟩

/-- Counterexample to C1 as stated: the set `{dtsA, dtsB, dtsC}` is
acyclic (`dtsB` depends on `dtsA`, `dtsC` depends on `dtsB`), yet
sorting the permutation `[dtsC, dtsA, dtsB]` returns it unchanged —
`dtsC` precedes its dependency `dtsB` — because the comparator considers
all adjacent pairs already ascending, so CPython's sort never swaps
anything. -/
theorem c1_counterexample :
    AcyclicT [dtsA, dtsB, dtsC] ∧
    pySort dts_lt [dtsC, dtsA, dtsB] = [dtsC, dtsA, dtsB] ∧
    topoOkB (pySort dts_lt [dtsC, dtsA, dtsB]) = false :=
  ⟨⟨fun n => n.Identifier, by decide⟩, by decide, by decide⟩

/-- The mutually dependent pair `dtsP`, `dtsQ` has no strictly
decreasing rank, i.e. it is cyclic. -/
theorem not_acyclic_PQ : ¬ AcyclicT [dtsP, dtsQ] := by
  rintro ⟨rank, hr⟩
  have h1 := hr dtsP (by simp) (nid 12) (by decide) (by decide)
  have h2 := hr dtsQ (by simp) (nid 11) (by decide) (by decide)
  have e1 : dtsP.desc.nodeId = nid 11 := by decide
  have e2 : dtsQ.desc.nodeId = nid 12 := by decide
  rw [e1] at h1
  rw [e2] at h2
  omega

/-- C2 (amended): on an input containing a dependency cycle the ordering
step does not fail at all — `dtypes.sort()` with `DataTypeSorter.__lt__`
performs no cycle detection and silently returns a permutation of the
input. -/
theorem c2_cycle_not_detected (xs : List DataTypeSorter) (_h : ¬ AcyclicT xs) :
    List.Perm (pySort dts_lt xs) xs :=
  pySort_perm dts_lt xs

/-- Witness for C2 at the cyclic pair `dtsP`, `dtsQ`. -/
theorem c2_witness :
    (¬ AcyclicT [dtsP, dtsQ]) ∧
    List.Perm (pySort dts_lt [dtsP, dtsQ]) [dtsP, dtsQ] :=
  ⟨not_acyclic_PQ, c2_cycle_not_detected [dtsP, dtsQ] not_acyclic_PQ⟩

/-- Counterexample to C2 as stated: on the cyclic pair `dtsP`, `dtsQ`
(each lists the other among its dependencies) the ordering step raises
no error naming the cycle — the embedded sort is a total function and
returns the reversed pair, a silently produced complete order. -/
theorem c2_counterexample :
    (¬ AcyclicT [dtsP, dtsQ]) ∧
    pySort dts_lt [dtsP, dtsQ] = [dtsQ, dtsP] :=
  ⟨not_acyclic_PQ, by decide⟩

end Structures104

namespace StandardAddressSpace

/-- C3 (amended): after the single retry pass of
`PostponeReferences.__aexit__`, if any nodes remain the load fails
naming exactly the remaining nodes — the postponed references are
neither retried nor reported; only when all nodes resolve and
references remain does it fail naming exactly the remaining
references; it succeeds when both retries leave nothing. -/
theorem c3_retry_failure_report (tn tr : List Nat → List Nat) (pn pr : List Nat) :
    (tn pn ≠ [] →
      aexit_retry tn tr pn pr = Except.error (LoadFailure.remainingNodes (tn pn))) ∧
    (tn pn = [] → tr pr ≠ [] →
      aexit_retry tn tr pn pr = Except.error (LoadFailure.remainingRefs (tr pr))) ∧
    (tn pn = [] → tr pr = [] → aexit_retry tn tr pn pr = Except.ok ()) := by
  refine ⟨?_, ?_, ?_⟩
  · intro h
    have hl : (tn pn).length ≠ 0 := by simpa [List.length_eq_zero] using h
    simp [aexit_retry, hl]
  · intro h1 h2
    have hl1 : (tn pn).length = 0 := by simp [h1]
    have hl2 : (tr pr).length ≠ 0 := by simpa [List.length_eq_zero] using h2
    simp [aexit_retry, hl1, hl2]
  · intro h1 h2
    simp [aexit_retry, h1, h2]

/-- Witness for C3: all postponed nodes insert on retry, the reference 7
does not; the failure names exactly the remaining reference. -/
theorem c3_witness :
    aexit_retry (fun _ => []) (fun l => l) [5] [7] =
      Except.error (LoadFailure.remainingRefs [7]) :=
  (c3_retry_failure_report (fun _ => []) (fun l => l) [5] [7]).2.1 rfl (by decide)

/-- Counterexample to C3 as stated: when both pending sets are still
non-empty after retry (here node 5 and reference 7 both fail again), the
failure names only the remaining nodes; the remaining reference 7
appears nowhere in the report. -/
theorem c3_counterexample :
    aexit_retry (fun l => l) (fun l => l) [5] [7] =
      Except.error (LoadFailure.remainingNodes [5]) ∧
    7 ∉ (LoadFailure.remainingNodes [5]).reportedIds := by
  constructor
  · rfl
  · decide

end StandardAddressSpace

namespace Structures104

/-- The `new_enum` counter assigns `c + i` to the i-th created field. -/
theorem new_enum_fields_from_get (c : Int) (vs : List String) (i : Nat) (v : String)
    (h : vs[i]? = some v) :
    (new_enum_fields_from c vs)[i]? = some { Name := v, Value := c + i } := by
  induction vs generalizing c i with
  | nil => simp at h
  | cons x xs ih =>
    cases i with
    | zero =>
      simp only [List.getElem?_cons_zero, Option.some.injEq] at h
      simp [new_enum_fields_from, h]
    | succ j =>
      simp only [List.getElem?_cons_succ] at h
      have hj := ih (c + 1) j h
      have harith : c + 1 + (j : Int) = c + ((j + 1 : Nat) : Int) := by push_cast; ring
      rw [harith] at hj
      simpa [new_enum_fields_from] using hj

/-- C4 (amended): `make_enum_code` registers each enum field under the
numeric value carried in the source `EnumField.Value`, not under its
position; position-equals-value holds only for enums created by
`new_enum`, whose counter writes the 0-based position into
`EnumField.Value` at creation time. -/
theorem c4_enum_value_from_field :
    (∀ (edef : List EnumField) (i : Nat) (f : EnumField), edef[i]? = some f →
      (make_enum_entries edef)[i]? = some (clean_name f.Name, f.Value)) ∧
    (∀ (values : List String) (i : Nat) (v : String), values[i]? = some v →
      (new_enum_fields values)[i]? = some { Name := v, Value := (i : Int) }) := by
  constructor
  · intro edef i f h
    simp [make_enum_entries, List.getElem?_map, h]
  · intro values i v h
    have := new_enum_fields_from_get 0 values i v h
    simpa [new_enum_fields] using this

/-- Witness for C4: the field `Red` at position 0 carrying value 5
compiles to the entry `(Red, 5)`, and `new_enum` gives the second of
`[Red, Green]` the value 1. -/
theorem c4_witness :
    (make_enum_entries [{ Name := "Red", Value := 5 }])[0]? = some ("Red", 5) ∧
    (new_enum_fields ["Red", "Green"])[1]? = some { Name := "Green", Value := 1 } := by
  constructor
  · have := c4_enum_value_from_field.1 [{ Name := "Red", Value := 5 }] 0
      { Name := "Red", Value := 5 } rfl
    simpa [show clean_name "Red" = "Red" by decide] using this
  · exact c4_enum_value_from_field.2 ["Red", "Green"] 1 "Green" rfl

/-- Counterexample to C4 as stated: an enumeration schema whose single
field `Red` carries the source value 5 is compiled with registered value
5 at position 0 — not the position 0 the claim demands. -/
theorem c4_counterexample :
    (make_enum_entries [{ Name := "Red", Value := 5 }])[0]? = some ("Red", 5) ∧
    ¬ (make_enum_entries [{ Name := "Red", Value := 5 }])[0]? = some ("Red", 0) := by
  constructor
  · decide
  · decide

/-- C5 (amended): the scalar defaults produced by `get_default_value`
are Python `None` for String, a freshly generated random uuid for Guid,
empty bytes for ByteString/CharArray/Char, `True` for Boolean, the
current time for DateTime, 0 for the ten numeric types, and
enum-member / default-constructor expressions otherwise; the empty-list
default applies exactly to fields with `ValueRank >= 1` (regardless of
element type). -/
theorem c5_default_values (ue : String → Option String) (vr : Int) (t : String) :
    (vr ≥ 1 → struct_field_default ue vr t = DefaultExpr.emptyList) ∧
    (vr < 1 → struct_field_default ue vr t = get_default_value ue t []) ∧
    get_default_value ue "String" [] = DefaultExpr.pyNone ∧
    get_default_value ue "Guid" [] = DefaultExpr.uuid4 ∧
    get_default_value ue "ByteString" [] = DefaultExpr.emptyBytes ∧
    get_default_value ue "Char" [] = DefaultExpr.emptyBytes ∧
    get_default_value ue "Boolean" [] = DefaultExpr.pyTrue ∧
    get_default_value ue "DateTime" [] = DefaultExpr.utcnow ∧
    (∀ t2 ∈ numericTypes, get_default_value ue t2 [] = DefaultExpr.zero) := by
  refine ⟨?_, ?_, rfl, rfl, rfl, rfl, rfl, rfl, ?_⟩
  · intro h
    simp [struct_field_default, h]
  · intro h
    have h1 : ¬ vr ≥ 1 := by omega
    simp [struct_field_default, h1]
  · intro t2 ht2
    fin_cases ht2 <;> rfl

/-- Witness for C5: a `ValueRank = 1` Int32 field defaults to the empty
list, a scalar Boolean field defaults to the expression `True`. -/
theorem c5_witness :
    struct_field_default (fun _ => none) 1 "Int32" = DefaultExpr.emptyList ∧
    get_default_value (fun _ => none) "Boolean" [] = DefaultExpr.pyTrue :=
  ⟨(c5_default_values (fun _ => none) 1 "Int32").1 (by norm_num),
   (c5_default_values (fun _ => none) 1 "Int32").2.2.2.2.2.2.1⟩

/-- Counterexample to C5 as stated: the default initializer compiled for
a scalar Boolean field is the expression `True`, not the zero value
`False` the claim requires (likewise Guid gets a random `uuid.uuid4()`
and DateTime the current `datetime.utcnow()`, not zero values). -/
theorem c5_counterexample :
    get_default_value (fun _ => none) "Boolean" [] = DefaultExpr.pyTrue ∧
    DefaultExpr.pyTrue ≠ DefaultExpr.pyFalse :=
  ⟨rfl, by decide⟩

end Structures104

namespace Structures104

/-- The switches loop maps the k-th optional field (counting only
optional fields, in declaration order) to bit `c + k`. -/
theorem switchesFrom_eq (fs : List StructField) : ∀ c : Nat,
    switchesFrom c fs = ((fs.filter fun f => f.IsOptional).enumFrom c).map
      (fun p => (clean_name p.2.Name, p.1)) := by
  induction fs with
  | nil => intro c; rfl
  | cons f fs ih =>
    intro c
    by_cases hf : f.IsOptional
    · simp [switchesFrom, hf, List.filter_cons, List.enumFrom, ih (c + 1)]
    · simp [switchesFrom, hf, List.filter_cons, ih c]

/-- C6: assuming the classification invariant that `new_struct`
establishes (`StructureType` equals `structure_type_of` of the fields:
`StructureWithOptionalFields` iff some field is optional), a successful
compilation of a schema with at least one optional field places the
synthetic `('Encoding', 'Byte')` field first in `ua_types` and maps the
i-th optional field (0-indexed, counting only optional fields in
declaration order) to bit i of the mask; a schema with no optional field
gets no bitmask entry and no switches table. -/
theorem c6_bitmask_layout (env : UaEnv) (sdef : SDef) (sw : List (String × Nat))
    (tys : List (String × String))
    (hty : sdef.StructureType = structure_type_of sdef.Fields)
    (hok : make_structure_layout env sdef = Except.ok (sw, tys)) :
    ((∃ f ∈ sdef.Fields, f.IsOptional = true) →
      tys.head? = some ("Encoding", "Byte") ∧
      sw = (sdef.Fields.filter fun f => f.IsOptional).enum.map
          (fun p => (clean_name p.2.Name, p.1))) ∧
    ((∀ f ∈ sdef.Fields, f.IsOptional = false) →
      sw = [] ∧ field_entries env sdef.Fields = some tys) := by
  by_cases hopt : sdef.Fields.any (fun f => f.IsOptional) = true
  · have hst : sdef.StructureType = .StructureWithOptionalFields := by
      rw [hty, structure_type_of, if_pos hopt]
    rcases he : field_entries env sdef.Fields with _ | entries
    · rw [make_structure_layout, hst] at hok
      simp [he] at hok
    · rw [make_structure_layout, hst] at hok
      simp [he] at hok
      obtain ⟨hsw, htys⟩ := hok
      constructor
      · intro _
        refine ⟨?_, ?_⟩
        · rw [← htys]; rfl
        · rw [← hsw, switchesFrom_eq, List.enum]
      · intro hall
        exfalso
        rcases List.any_eq_true.mp hopt with ⟨f, hf, hfo⟩
        rw [hall f hf] at hfo
        exact Bool.false_ne_true hfo
  · have hst : sdef.StructureType = .Structure := by
      rw [hty, structure_type_of, if_neg hopt]
    rcases he : field_entries env sdef.Fields with _ | entries
    · rw [make_structure_layout, hst] at hok
      simp [he] at hok
    · rw [make_structure_layout, hst] at hok
      simp [he] at hok
      obtain ⟨hsw, htys⟩ := hok
      constructor
      · intro hex
        exfalso
        rcases hex with ⟨f, hf, hfo⟩
        exact hopt (List.any_eq_true.mpr ⟨f, hf, hfo⟩)
      · intro _
        exact ⟨hsw, by rw [htys]⟩

/-- Witness for C6 at the schema `sdefOptW` (`Speed : Double` required,
`Label : String` optional): the compiled layout starts with the
synthetic `Encoding` byte and assigns `Label` bit 0. -/
theorem c6_witness :
    make_structure_layout uaEnvBase sdefOptW =
      Except.ok ([("Label", 0)],
        [("Encoding", "Byte"), ("Speed", "Double"), ("Label", "String")]) ∧
    [("Encoding", "Byte"), ("Speed", "Double"), ("Label", "String")].head? =
      some ("Encoding", "Byte") ∧
    [("Label", 0)] = (sdefOptW.Fields.filter fun f => f.IsOptional).enum.map
      (fun p => (clean_name p.2.Name, p.1)) := by
  have hok : make_structure_layout uaEnvBase sdefOptW =
      Except.ok ([("Label", 0)],
        [("Encoding", "Byte"), ("Speed", "Double"), ("Label", "String")]) := by rfl
  have h := (c6_bitmask_layout uaEnvBase sdefOptW _ _ (by decide) hok).1
    ⟨fieldOptW, by decide, by decide⟩
  exact ⟨hok, h.1, h.2⟩

end Structures104

namespace Structures104

/-- Folding `fun acc f => f :: acc` over the reversed parent fields
(the `insert(0, field)` loop) prepends the parent fields in their
original order. -/
theorem foldl_cons_reverse (p l : List StructField) :
    p.reverse.foldl (fun acc f => f :: acc) l = p ++ l := by
  induction p with
  | nil => rfl
  | cons x xs ih => simp [List.foldl_append, ih]

/-- The flattening step preserves the parent's order and concatenates:
`prepend_parent_fields` yields parent fields first, then own fields. -/
theorem prepend_parent_fields_eq (p : List StructField) (sdef : SDef) :
    (prepend_parent_fields p sdef).Fields = p ++ sdef.Fields := by
  simp [prepend_parent_fields, foldl_cons_reverse]

/-- C7: when the discovery walk reads a definition for a node and a
parent definition exists, the descriptor it produces for that node
carries exactly the parent's (already flattened) fields first, in the
parent's original order, followed by the node's own declared fields —
plain list concatenation, so nothing is renamed, overridden or
deduplicated — and the node's children are parsed with that flattened
definition as their parent. -/
theorem c7_inheritance_concat (srv : Srv) (d : NodeDesc) (cs rest : List NodeTree)
    (ps sdef : SDef) (h : read_data_type_definition srv d = some sdef) :
    recursive_parse srv (NodeTree.node d cs :: rest) (some ps) =
      DataTypeSorter.make d.nodeId (clean_name d.browseName) d
          { sdef with Fields := ps.Fields ++ sdef.Fields }
        :: (recursive_parse srv cs
              (some { sdef with Fields := ps.Fields ++ sdef.Fields })
            ++ recursive_parse srv rest (some ps)) := by
  have hflat : prepend_parent_fields ps.Fields sdef =
      { sdef with Fields := ps.Fields ++ sdef.Fields } := by
    unfold prepend_parent_fields
    rw [foldl_cons_reverse]
  simp [recursive_parse, h, hflat]

/-- Witness for C7: a subtype with own field `Y` whose parent's
flattened fields are `[X]` is parsed into a descriptor with field list
`[X, Y]` in that order. -/
theorem c7_witness :
    recursive_parse srvW [NodeTree.node descW []] (some sdefParentW) =
      [DataTypeSorter.make descW.nodeId (clean_name descW.browseName) descW
        { sdefOwnW with Fields := sdefParentW.Fields ++ sdefOwnW.Fields }] := by
  rw [c7_inheritance_concat srvW descW [] [] sdefParentW sdefOwnW (by rfl)]
  simp [recursive_parse]

/-- C8 (amended): the `deps` recorded by `DataTypeSorter.__init__` are
exactly the `DataType` identifiers of every field of the definition —
built-in field types included, contrary to the claim (built-ins are
harmless for the ordering only because no built-in type ever appears as
a sorted descriptor). -/
theorem c8_deps_are_field_datatypes (dt : NodeId) (name : String) (desc : NodeDesc)
    (sdef : SDef) (x : NodeId) :
    x ∈ (DataTypeSorter.make dt name desc sdef).deps ↔
      ∃ f ∈ sdef.Fields, f.DataType = x := by
  simp [DataTypeSorter.make, List.mem_map]

/-- Witness for C8: the NodeId 99 referenced by the single field of a
definition is among the recorded deps. -/
theorem c8_witness :
    nid 99 ∈ (DataTypeSorter.make (nid 50) "T" ⟨nid 50, "T"⟩
      (sdefWithDeps (nid 150) [nid 99])).deps :=
  (c8_deps_are_field_datatypes (nid 50) "T" ⟨nid 50, "T"⟩
      (sdefWithDeps (nid 150) [nid 99]) (nid 99)).mpr
    ⟨depField (nid 99), by decide, rfl⟩

/-- Counterexample to C8 as stated: a structure whose single field has
the built-in type Int32 (namespace 0, identifier 6) records that
built-in NodeId among its deps — deps are not restricted to custom
types. -/
theorem c8_counterexample :
    (DataTypeSorter.make (nid 30) "T" ⟨nid 30, "T"⟩
        (sdefWithDeps (nid 130) [⟨0, 6⟩])).deps = [⟨0, 6⟩] ∧
    isBuiltinNodeId ⟨0, 6⟩ = true := by
  constructor
  · decide
  · decide

/-- C10: whenever the definition read for a node yields `None` — the
browse name is the excluded legacy name `FilterOperand`, the browse name
already exists as an attribute of `ua`, the node lacks the attribute, or
any other read error occurs — the discovery walk skips the node and
never visits any of its subtype descendants: the walk over the forest
with that node's tree produces exactly the descriptors of the remaining
siblings, so no type in the skipped subtree is registered. -/
theorem c10_skip_whole_subtree :
    (∀ (srv : Srv) (d : NodeDesc) (cs rest : List NodeTree) (parent : Option SDef),
      read_data_type_definition srv d = none →
      recursive_parse srv (NodeTree.node d cs :: rest) parent =
        recursive_parse srv rest parent) ∧
    (∀ (srv : Srv) (n : NodeId),
      read_data_type_definition srv ⟨n, "FilterOperand"⟩ = none) ∧
    (∀ (srv : Srv) (d : NodeDesc), srv.uaHasAttr d.browseName = true →
      read_data_type_definition srv d = none) ∧
    (∀ (srv : Srv) (d : NodeDesc), srv.read d.nodeId = ReadOutcome.badAttributeId →
      read_data_type_definition srv d = none) ∧
    (∀ (srv : Srv) (d : NodeDesc), srv.read d.nodeId = ReadOutcome.otherError →
      read_data_type_definition srv d = none) := by
  refine ⟨?_, ?_, ?_, ?_, ?_⟩
  · intro srv d cs rest parent h
    simp [recursive_parse, h]
  · intro srv n
    simp [read_data_type_definition]
  · intro srv d h
    by_cases hf : d.browseName = "FilterOperand"
    · simp [read_data_type_definition, hf]
    · simp [read_data_type_definition, hf, h]
  · intro srv d h
    by_cases hf : d.browseName = "FilterOperand"
    · simp [read_data_type_definition, hf]
    · by_cases ha : srv.uaHasAttr d.browseName
      · simp [read_data_type_definition, hf, ha]
      · simp [read_data_type_definition, hf, ha, h]
  · intro srv d h
    by_cases hf : d.browseName = "FilterOperand"
    · simp [read_data_type_definition, hf]
    · by_cases ha : srv.uaHasAttr d.browseName
      · simp [read_data_type_definition, hf, ha]
      · simp [read_data_type_definition, hf, ha, h]

/-- Witness for C10: a `FilterOperand` node with a child subtype that
would otherwise register is skipped together with that child — the walk
returns no descriptor at all, although the same server visits the child
standalone. -/
theorem c10_witness :
    recursive_parse srvW [NodeTree.node descF [NodeTree.node descW []]] none = [] ∧
    recursive_parse srvW [NodeTree.node descW []] none ≠ [] := by
  constructor
  · rw [c10_skip_whole_subtree.1 srvW descF [NodeTree.node descW []] [] none (by rfl)]
    simp [recursive_parse]
  · have hr : read_data_type_definition srvW descW = some sdefOwnW := rfl
    simp [recursive_parse, hr]

end Structures104
